import Mathlib

/-!
# A shallow embedding of `src/server.js`

The program is an Express application over two external stores: a PostgreSQL
table `videos` (reached through `pool.query`) and an S3 bucket.  The embedding
makes both stores an explicit state, every route handler a pure function from a
state and a request to an outcome (new state, response, list of store calls
issued), and `handle` the middleware chain in registration order.

Conventions.
* JavaScript strings are Lean strings and `includes` works on the underlying
  character lists.  The Unicode case conversion `toLowerCase` belongs to the
  JavaScript runtime and is a field of `Lib`, together with the one fact about it
  that is used: on ASCII text it is the ASCII lower-casing `asciiLower`.
* A row returned by `pool.query` is a JavaScript object, i.e. a list of
  key/value pairs.  PostgreSQL folds unquoted identifiers to lower case, so the
  keys of a result row are the lower-cased column names of the `CREATE TABLE`
  statement (lines 55-74); the page templates of the program read them that way
  (`video.bannerscript1`, `video.previewtitle`, `rv.previewimage`, lines 188-277).
* Library functions whose code is not part of the program (`useragent`,
  `path.extname`, the outcome of the object-store delete call) are fields of `Lib`.
* A body that `express.json()` or the upload middleware rejects is answered by
  Express's error handler with the status of the error: 400, 413 or 415 for the
  parser, 500 for the upload middleware.
* The handlers are embedded as their text reads, each on its own; the raw backtick
  inside the page template of `GET /videos` (line 372) is taken as part of that
  template's text.
* The two stores are reliable: a statement fails only for a reason visible in the
  state (duplicate primary key, integer out of range).
-/

namespace Proyecto

/-! ## Strings -/

/-- The test `s.startsWith(pat)` on character lists. -/
def startsWith : List Char → List Char → Bool
  | _, [] => true
  | [], _ :: _ => false
  | c :: cs, p :: ps => c == p && startsWith cs ps

/-- The search behind `String.prototype.includes`: try every start position. -/
def includesAt : List Char → List Char → Bool
  | [], pat => startsWith [] pat
  | c :: cs, pat => startsWith (c :: cs) pat || includesAt cs pat

/-- ASCII lower-casing: `A` to `Z` become `a` to `z`, every other character is kept.
This is how PostgreSQL folds the program's identifiers and how Express compares a path
segment with an ASCII literal of a route pattern. -/
def asciiLower (s : String) : String := ⟨s.data.map Char.toLower⟩

/-- Whether a string consists of ASCII characters only. -/
def isAsciiText (s : String) : Bool := s.data.all (fun c => decide (c.toNat < 128))

/-- Library behaviour the program relies on and whose code is not part of it. -/
structure Lib where
  /-- The value of `useragent.parse(header).toString()` (line 154). -/
  agentToString : Option String → String
  /-- The function `path.extname` (line 31). -/
  extname : String → String
  /-- Whether `s3.deleteObject(params).promise()` (line 538) completes for a key. -/
  deleteObjectOk : String → Bool
  /-- The runtime's `String.prototype.toLowerCase` (lines 91 and 96), a Unicode case
  conversion. -/
  toLowerCase : String → String
  /-- On ASCII text the runtime's conversion is the ASCII lower-casing. -/
  toLowerCase_ascii : ∀ s : String, isAsciiText s = true → toLowerCase s = asciiLower s

/-- The call `s.includes(pat)`. -/
def includes (s pat : String) : Bool := includesAt s.data pat.data

/-- The array `botList` of `isBot` (line 88-90). -/
def botList : List String :=
  ["googlebot", "bingbot", "slurp", "duckduckbot", "baiduspider", "yandexbot", "sogou",
   "exabot", "facebookexternalhit"]

/-- The function `isBot` (lines 87-92). -/
def isBot (lib : Lib) (userAgent : String) : Bool :=
  botList.any (fun bot => includes (lib.toLowerCase userAgent) bot)

/-- The function `isFacebookBot` (lines 95-97). -/
def isFacebookBot (lib : Lib) (userAgent : String) : Bool :=
  includes (lib.toLowerCase userAgent) "facebookexternalhit"

/-! ## JavaScript values and objects -/

/-- The JavaScript values that occur in request bodies and result rows. -/
inductive JsVal where
  | undefined
  | null
  | bool (b : Bool)
  | num (n : Int)
  | str (s : String)
  deriving DecidableEq, Repr

/-- JavaScript truthiness, as used by `if (x)`, `!x` and `x && y`. -/
def JsVal.truthy : JsVal → Bool
  | .undefined => false
  | .null => false
  | .bool b => b
  | .num n => decide (n ≠ 0)
  | .str s => decide (s ≠ "")

/-- The string a value is sent as when it is the target of `res.redirect`. -/
def JsVal.toStr : JsVal → String
  | .undefined => "undefined"
  | .null => "null"
  | .bool b => if b then "true" else "false"
  | .num n => toString n
  | .str s => s

/-- A plain JavaScript object: its own properties in order. -/
abbrev JsObject := List (String × JsVal)

/-- Property access `o.key`: `undefined` when the object has no such property. -/
def JsObject.get (o : JsObject) (key : String) : JsVal :=
  (o.lookup key).getD JsVal.undefined

/-- How `pg` passes a JavaScript value as a statement parameter for a TEXT column:
`undefined` and `null` both become NULL. -/
def sqlText : JsVal → Option String
  | .undefined => none
  | .null => none
  | .bool b => some (if b then "true" else "false")
  | .num n => some (toString n)
  | .str s => some s

/-! ## The two stores -/

/-- One row of the table `videos` (lines 55-74), with the types the program's only
INSERT (lines 126-134) gives the columns: `id` and `filename` are strings, the four
flags are booleans computed by `=== 'on'`, `clickCount` is an integer, and the other
columns hold a form field or NULL. -/
structure Video where
  id : String
  filename : String
  redirectUrl : Option String
  description : Option String
  bannerScript1 : Option String
  bannerScript2 : Option String
  bannerScript3 : Option String
  bannerScript4 : Option String
  bannerScript5 : Option String
  facebookRedirectUrl : Option String
  useCloaking : Bool
  useAntibot : Bool
  usePreview : Bool
  useVisitCounter : Bool
  previewTitle : Option String
  previewImage : Option String
  visitCounterScript : Option String
  clickCount : Int
  deriving DecidableEq, Repr

/-- A nullable TEXT value as `pg` returns it. -/
def textVal : Option String → JsVal
  | none => JsVal.null
  | some s => JsVal.str s

/-- The columns of a row under the names written in `CREATE TABLE` (lines 55-74). -/
def declaredColumns (v : Video) : List (String × JsVal) :=
  [("id", JsVal.str v.id),
   ("filename", JsVal.str v.filename),
   ("redirectUrl", textVal v.redirectUrl),
   ("description", textVal v.description),
   ("bannerScript1", textVal v.bannerScript1),
   ("bannerScript2", textVal v.bannerScript2),
   ("bannerScript3", textVal v.bannerScript3),
   ("bannerScript4", textVal v.bannerScript4),
   ("bannerScript5", textVal v.bannerScript5),
   ("facebookRedirectUrl", textVal v.facebookRedirectUrl),
   ("useCloaking", JsVal.bool v.useCloaking),
   ("useAntibot", JsVal.bool v.useAntibot),
   ("usePreview", JsVal.bool v.usePreview),
   ("useVisitCounter", JsVal.bool v.useVisitCounter),
   ("previewTitle", textVal v.previewTitle),
   ("previewImage", textVal v.previewImage),
   ("visitCounterScript", textVal v.visitCounterScript),
   ("clickCount", JsVal.num v.clickCount)]

/-- PostgreSQL's treatment of an identifier written without double quotes: it is
folded to lower case.  Every identifier in the program's SQL is unquoted. -/
def foldIdentifier (name : String) : String := asciiLower name

/-- The object `result.rows[0]` that `SELECT * FROM videos` yields for a row: one
property per column, named by the column's stored (folded) name. -/
def resultRow (v : Video) : JsObject :=
  (declaredColumns v).map (fun kv => (foldIdentifier kv.1, kv.2))

/-- The state of the two stores: the table and the bucket (key and content). -/
structure State where
  videos : List Video
  objects : List (String × String)
  deriving DecidableEq, Repr

/-- The statement `SELECT * FROM videos WHERE id = $1`, then `result.rows[0]`. -/
def selectById (vs : List Video) (videoId : String) : Option Video :=
  vs.find? (fun v => v.id == videoId)

/-- The largest value of the PostgreSQL type INTEGER. -/
def maxInteger : Int := 2147483647

/-- The statement `UPDATE videos SET clickCount = clickCount + 1 WHERE id = $1`
(line 168); it fails with "integer out of range" when a matching counter is at the
top of the type. -/
def bumpClickCount (vs : List Video) (videoId : String) : Option (List Video) :=
  if vs.any (fun v => v.id == videoId && decide (maxInteger < v.clickCount + 1)) then none
  else some (vs.map (fun v => if v.id == videoId then { v with clickCount := v.clickCount + 1 } else v))

/-- The statement `UPDATE videos SET description = $1 WHERE id = $2` (line 514). -/
def setDescription (vs : List Video) (videoId : String) (d : Option String) : List Video :=
  vs.map (fun v => if v.id == videoId then { v with description := d } else v)

/-- The rows left by `DELETE FROM videos WHERE id = $1` (line 526). -/
def deleteById (vs : List Video) (videoId : String) : List Video :=
  vs.filter (fun v => !(v.id == videoId))

/-- The statement `INSERT INTO videos ...` (lines 126-134): fails on a duplicate
primary key. -/
def insertVideo (vs : List Video) (row : Video) : Option (List Video) :=
  if vs.any (fun v => v.id == row.id) then none else some (vs ++ [row])

/-- Writing an object under a key replaces what was stored under that key. -/
def putObject (os : List (String × String)) (key content : String) : List (String × String) :=
  (os.filter (fun o => !(o.1 == key))) ++ [(key, content)]

/-- Removing the object stored under a key. -/
def removeObject (os : List (String × String)) (key : String) : List (String × String) :=
  os.filter (fun o => !(o.1 == key))

/-! ## Requests, responses and the library parameters -/

/-- The pages the program renders with status 200; their HTML text is not modelled. -/
inductive Page where
  | viewer
  | gallery
  | adminHome
  | adminList
  | editForm
  deriving DecidableEq, Repr

/-- Why `express.json()` rejects an `application/json` body. -/
inductive ParseFailure where
  /-- The text is not a JSON object or array (`entity.parse.failed`). -/
  | malformed
  /-- The body is longer than the limit of 100kb (`entity.too.large`). -/
  | tooLarge
  /-- The charset or the content encoding is not supported. -/
  | unsupported
  deriving DecidableEq, Repr

/-- The status of the error `express.json()` passes on. -/
def ParseFailure.status : ParseFailure → Nat
  | .malformed => 400
  | .tooLarge => 413
  | .unsupported => 415

/-- What a request is answered with. -/
inductive Response where
  /-- The call `res.status(code).send(text)`. -/
  | send (status : Nat) (text : String)
  /-- The call `res.send(html)`, status 200. -/
  | page (p : Page)
  /-- The call `res.status(code).json(...)` with `success` and `message` or `url`. -/
  | json (status : Nat) (success : Bool) (field : String)
  /-- The call `res.redirect(location)`, status 302. -/
  | redirect (location : String)
  /-- The challenge of `express-basic-auth`, status 401. -/
  | unauthorized
  /-- The rejection of a body by `express.json()`, answered by Express's error handler
  with the status of the parser's error. -/
  | badBody (why : ParseFailure)
  /-- The rejection of a multipart body by `upload.single('video')`, answered by
  Express's error handler with status 500. -/
  | uploadRejected
  /-- Express's answer when no route matches, status 404. -/
  | noRoute
  deriving DecidableEq, Repr

/-- The HTTP status of a response. -/
def Response.statusCode : Response → Nat
  | .send status _ => status
  | .page _ => 200
  | .json status _ _ => status
  | .redirect _ => 302
  | .unauthorized => 401
  | .badBody why => why.status
  | .uploadRejected => 500
  | .noRoute => 404

/-- A call issued to one of the two stores while a request is handled. -/
inductive Call where
  | selectVideo (videoId : String)
  | selectRelated (videoId : String)
  | selectAll
  | insertRow (videoId : String)
  | updateClick (videoId : String)
  | updateDescription (videoId : String)
  | deleteRow (videoId : String)
  | putObject (key : String)
  | deleteObject (key : String)
  deriving DecidableEq, Repr

/-- The result of handling one request. -/
structure Outcome where
  state : State
  response : Response
  calls : List Call
  deriving DecidableEq, Repr

/-- A file part of a multipart body: a part that carries a file name. -/
structure UploadedFile where
  originalname : String
  content : String
  deriving DecidableEq, Repr

/-- The body of a request, by content type. -/
inductive Body where
  | empty
  /-- An `application/json` body that the parser accepts and that parses to an object. -/
  | json (obj : JsObject)
  /-- An `application/json` body the parser rejects, and why. -/
  | jsonRejected (why : ParseFailure)
  /-- An `application/x-www-form-urlencoded` body, what an HTML form posts. -/
  | urlencoded (fields : List (String × String))
  /-- A `multipart/form-data` body: its text fields, its file parts in order, each with
  the name of its field, and whether the body is intact.  A body that is not intact has
  a defect after these parts that makes the upload middleware fail: malformed data, or
  a field or file over one of the middleware's limits. -/
  | multipart (fields : List (String × String)) (files : List (String × UploadedFile))
      (intact : Bool)
  deriving DecidableEq, Repr

/-- The first file attached to a request, if any, under whatever field name. -/
def Body.attachedFile : Body → Option UploadedFile
  | .multipart _ files _ => files.head?.map (fun part => part.2)
  | _ => none

/-- Request methods; `get` also stands for HEAD, which Express serves through the
GET routes, and `other` for the methods no route is registered for. -/
inductive Method where
  | get
  | post
  | other
  deriving DecidableEq, Repr

/-- An HTTP request: the path is given by its segments, `auth` is the user and
password of a well-formed `Authorization: Basic` header. -/
structure Request where
  method : Method
  path : List String
  userAgent : Option String
  auth : Option (String × String)
  body : Body
  deriving DecidableEq, Repr

/-- The two results of `shortid.generate()` drawn while an upload is handled: the
object-key suffix (line 30) and the video id (line 105). -/
structure Fresh where
  suffix : String
  videoId : String
  deriving DecidableEq, Repr

/-! ## Middleware -/

/-- The middleware `express.json()` (line 78): the value of `req.body` it leaves, or
the reason for which it rejects the body.  A body of another content type is not
parsed and `req.body` is the empty object. -/
def expressJson : Body → Except ParseFailure JsObject
  | .json obj => Except.ok obj
  | .jsonRejected why => Except.error why
  | _ => Except.ok []

/-- The table `users` given to `basicAuth` (line 82). -/
def adminUsers : List (String × String) := [("Josejagl", "Jose2211$")]

/-- The authorizer of `express-basic-auth` over the static user table. -/
def authorized : Option (String × String) → Bool
  | none => false
  | some (user, password) => adminUsers.any (fun u => user == u.1 && password == u.2)

/-- Whether a path segment matches a literal of a route pattern (Express matches
without regard to case). -/
def segIs (seg lit : String) : Bool := asciiLower seg == lit

/-- Whether a path lies under the mount point `/admin` (line 81). -/
def underAdmin : List String → Bool
  | seg :: _ => segIs seg "admin"
  | [] => false

/-- The routes registered by the program. -/
inductive Route where
  | upload
  | video (videoId : String)
  | videos
  | admin
  | adminVideos
  | adminEditGet (videoId : String)
  | adminEditPost (videoId : String)
  | adminDelete (videoId : String)
  deriving DecidableEq, Repr

/-- Route matching, in registration order (lines 100, 143, 295, 400, 420, 474, 509, 522). -/
def dispatch : Method → List String → Option Route
  | .post, [a] => if segIs a "upload" then some Route.upload else none
  | .get, [a] =>
    if segIs a "videos" then some Route.videos
    else if segIs a "admin" then some Route.admin
    else none
  | .get, [a, b] =>
    if segIs a "video" then some (Route.video b)
    else if segIs a "admin" && segIs b "videos" then some Route.adminVideos
    else none
  | .get, [a, b, c, d] =>
    if segIs a "admin" && segIs b "videos" && segIs d "edit" then some (Route.adminEditGet c)
    else if segIs a "admin" && segIs b "videos" && segIs d "delete" then some (Route.adminDelete c)
    else none
  | .post, [a, b, c, d] =>
    if segIs a "admin" && segIs b "videos" && segIs d "edit" then some (Route.adminEditPost c)
    else none
  | _, _ => none

/-- The middleware `upload.single('video')` (lines 25-44, 100).  It accepts one file
part, under the field `video`: that part is written to the bucket under
`videos/<suffix><ext>` and described by `req.file`, whose `key` is returned, and the
text fields become `req.body`.  A file part under another field, a second file part, or
a defect of the body makes the middleware fail: a file it has already written is removed
from the bucket again and the error goes to Express's error handler (second component
`none`).  A body that is not multipart is left as `express.json()` produced it. -/
def uploadSingle (lib : Lib) (s : State) (parsed : JsObject) (body : Body) (suffix : String) :
    State × Option (Option String × JsObject) × List Call :=
  match body with
  | .multipart fields files intact =>
    match files with
    | [] =>
      if intact then (s, some (none, fields.map (fun kv => (kv.1, JsVal.str kv.2))), [])
      else (s, none, [])
    | (name, file) :: rest =>
      let key := "videos/" ++ suffix ++ lib.extname file.originalname
      let stored : State := { s with objects := putObject s.objects key file.content }
      let removed : State := { s with objects := removeObject stored.objects key }
      if name == "video" then
        if rest.isEmpty && intact then
          (stored, some (some key, fields.map (fun kv => (kv.1, JsVal.str kv.2))),
            [Call.putObject key])
        else (removed, none, [Call.putObject key, Call.deleteObject key])
      else (s, none, [])
  | _ => (s, some (none, parsed), [])

/-! ## Route handlers -/

/-- The row the upload handler inserts (lines 105-134): the destructured fields of
`req.body`, the four flags compared with `'on'`, and `clickCount` 0. -/
def newVideo (videoId filename : String) (body : JsObject) : Video :=
  { id := videoId
    filename := filename
    redirectUrl := sqlText (body.get "redirectUrl")
    description := sqlText (body.get "description")
    bannerScript1 := sqlText (body.get "bannerScript1")
    bannerScript2 := sqlText (body.get "bannerScript2")
    bannerScript3 := sqlText (body.get "bannerScript3")
    bannerScript4 := sqlText (body.get "bannerScript4")
    bannerScript5 := sqlText (body.get "bannerScript5")
    facebookRedirectUrl := sqlText (body.get "facebookRedirectUrl")
    useCloaking := decide (body.get "useCloaking" = JsVal.str "on")
    useAntibot := decide (body.get "useAntibot" = JsVal.str "on")
    usePreview := decide (body.get "usePreview" = JsVal.str "on")
    useVisitCounter := decide (body.get "useVisitCounter" = JsVal.str "on")
    previewTitle := sqlText (body.get "previewTitle")
    previewImage := sqlText (body.get "previewImage")
    visitCounterScript := sqlText (body.get "visitCounterScript")
    clickCount := 0 }

/-- The handler of `POST /upload` (lines 100-140), after `upload.single('video')`:
`file` is `req.file.key` when a file was received. -/
def uploadHandler (s : State) (file : Option String) (body : JsObject) (videoId : String)
    (issued : List Call) : Outcome :=
  match file with
  | none => ⟨s, Response.json 400 false "No se recibió ningún archivo de video", issued⟩
  | some filename =>
    match insertVideo s.videos (newVideo videoId filename body) with
    | some vs =>
      ⟨{ s with videos := vs }, Response.json 200 true ("/video/" ++ videoId),
        issued ++ [Call.insertRow videoId]⟩
    | none =>
      ⟨s, Response.json 500 false "Error al guardar en la base de datos",
        issued ++ [Call.insertRow videoId]⟩

/-- The handler of `GET /video/:id` (lines 143-290).  The three policy tests read the
properties `useAntibot`, `facebookRedirectUrl` and `redirectUrl` of the result row,
written as in the source. -/
def viewVideo (lib : Lib) (s : State) (videoId : String) (uaHeader : Option String) : Outcome :=
  match selectById s.videos videoId with
  | none => ⟨s, Response.send 404 "Video no encontrado", [Call.selectVideo videoId]⟩
  | some row =>
    let video := resultRow row
    let userAgent := lib.agentToString uaHeader
    if (video.get "useAntibot").truthy && isBot lib userAgent then
      ⟨s, Response.send 403 "Acceso denegado", [Call.selectVideo videoId]⟩
    else if (video.get "facebookRedirectUrl").truthy && isFacebookBot lib userAgent then
      ⟨s, Response.redirect (video.get "facebookRedirectUrl").toStr, [Call.selectVideo videoId]⟩
    else if (video.get "redirectUrl").truthy then
      match bumpClickCount s.videos videoId with
      | some vs =>
        ⟨{ s with videos := vs }, Response.redirect (video.get "redirectUrl").toStr,
          [Call.selectVideo videoId, Call.updateClick videoId]⟩
      | none =>
        ⟨s, Response.send 500 "Error interno del servidor",
          [Call.selectVideo videoId, Call.updateClick videoId]⟩
    else
      ⟨s, Response.page Page.viewer, [Call.selectVideo videoId, Call.selectRelated videoId]⟩

/-- The handler of `GET /videos` (lines 295-397). -/
def listVideos (s : State) : Outcome :=
  ⟨s, Response.page Page.gallery, [Call.selectAll]⟩

/-- The handler of `GET /admin` (lines 400-418). -/
def adminHome (s : State) : Outcome :=
  ⟨s, Response.page Page.adminHome, []⟩

/-- The handler of `GET /admin/videos` (lines 420-472). -/
def adminList (s : State) : Outcome :=
  ⟨s, Response.page Page.adminList, [Call.selectAll]⟩

/-- The handler of `GET /admin/videos/:id/edit` (lines 474-507). -/
def adminEditGet (s : State) (videoId : String) : Outcome :=
  match selectById s.videos videoId with
  | none => ⟨s, Response.send 404 "Video no encontrado", [Call.selectVideo videoId]⟩
  | some _ => ⟨s, Response.page Page.editForm, [Call.selectVideo videoId]⟩

/-- The handler of `POST /admin/videos/:id/edit` (lines 509-520): `description` is
read from `req.body` and passed as the statement's first parameter. -/
def adminEditPost (s : State) (videoId : String) (body : JsObject) : Outcome :=
  let description := body.get "description"
  ⟨{ s with videos := setDescription s.videos videoId (sqlText description) },
    Response.redirect "/admin/videos", [Call.updateDescription videoId]⟩

/-- The handler of `GET /admin/videos/:id/delete` (lines 522-544): the row is deleted
returning its filename; only when a row came back is the object-store delete called. -/
def adminDelete (lib : Lib) (s : State) (videoId : String) : Outcome :=
  match selectById s.videos videoId with
  | none => ⟨s, Response.send 404 "Video no encontrado", [Call.deleteRow videoId]⟩
  | some row =>
    if lib.deleteObjectOk row.filename then
      ⟨{ videos := deleteById s.videos videoId, objects := removeObject s.objects row.filename },
        Response.redirect "/admin/videos", [Call.deleteRow videoId, Call.deleteObject row.filename]⟩
    else
      ⟨{ s with videos := deleteById s.videos videoId },
        Response.send 500 "Error al eliminar el video",
        [Call.deleteRow videoId, Call.deleteObject row.filename]⟩

/-- The handler behind a matched route. -/
def runRoute (lib : Lib) (gen : Fresh) (s : State) (req : Request) (parsed : JsObject) :
    Route → Outcome
  | .upload =>
    match uploadSingle lib s parsed req.body gen.suffix with
    | (s1, some (file, body), issued) => uploadHandler s1 file body gen.videoId issued
    | (s1, none, issued) => ⟨s1, Response.uploadRejected, issued⟩
  | .video videoId => viewVideo lib s videoId req.userAgent
  | .videos => listVideos s
  | .admin => adminHome s
  | .adminVideos => adminList s
  | .adminEditGet videoId => adminEditGet s videoId
  | .adminEditPost videoId => adminEditPost s videoId parsed
  | .adminDelete videoId => adminDelete lib s videoId

/-- The application: `express.json()` (line 78), then the credential check mounted at
`/admin` (lines 81-84), then the routes.  The middleware `express.static('public')`
(line 77) serves the files of a directory that is not part of the source and passes
every other request on; the requests considered are the ones it passes on. -/
def handle (lib : Lib) (gen : Fresh) (s : State) (req : Request) : Outcome :=
  match expressJson req.body with
  | Except.error why => ⟨s, Response.badBody why, []⟩
  | Except.ok parsed =>
    if underAdmin req.path && !authorized req.auth then ⟨s, Response.unauthorized, []⟩
    else
      match dispatch req.method req.path with
      | none => ⟨s, Response.noRoute, []⟩
      | some route => runRoute lib gen s req parsed route

/-! ## Auxiliary notions and sample data used by the statements below -/

/-- Whether the second string is the first with the case of some letters changed. -/
def caseVariant : List Char → List Char → Bool
  | [], [] => true
  | c :: cs, d :: ds => (d == c || d == c.toLower || d == c.toUpper) && caseVariant cs ds
  | _, _ => false

/-- The lookup of the row with a given primary key. -/
def State.row (s : State) (videoId : String) : Option Video := selectById s.videos videoId

/-- The lower-casing of one character in `sampleLower`. -/
def sampleLowerChar (c : Char) : List Char :=
  if c.toNat = 0x212A then ['k']
  else if c.toNat = 0x130 then ['i', Char.ofNat 0x307]
  else [c.toLower]

/-- The lower-casing of a list of characters in `sampleLower`. -/
def sampleLowerChars : List Char → List Char
  | [] => []
  | c :: cs => sampleLowerChar c ++ sampleLowerChars cs

/-- A lower-casing for the sample library: ASCII letters are lower-cased, the KELVIN
SIGN U+212A becomes `k`, U+0130 becomes `i` followed by U+0307, and every other
character is kept. -/
def sampleLower (s : String) : String := ⟨sampleLowerChars s.data⟩

/-- A library instance: the user-agent text is passed through unchanged (empty when the
header is absent), every file has extension `.mp4`, the object-store delete completes,
and strings are lower-cased by `sampleLower`. -/
def sampleLib : Lib :=
  { agentToString := fun h => h.getD ""
    extname := fun _ => ".mp4"
    deleteObjectOk := fun _ => true
    toLowerCase := sampleLower
    toLowerCase_ascii := fun s h => by
      have key : ∀ l : List Char, l.all (fun c => decide (c.toNat < 128)) = true →
          sampleLowerChars l = l.map Char.toLower := by
        intro l
        induction l with
        | nil => intro _; rfl
        | cons c cs ih =>
          intro hl
          simp only [List.all_cons, Bool.and_eq_true, decide_eq_true_eq] at hl
          have h1 : ¬ c.toNat = 0x212A := by omega
          have h2 : ¬ c.toNat = 0x130 := by omega
          simp only [sampleLowerChars, sampleLowerChar, if_neg h1, if_neg h2, ih hl.2,
            List.map_cons, List.singleton_append]
      unfold sampleLower asciiLower
      rw [key s.data h] }

/-- Two generated identifiers. -/
def sampleFresh : Fresh := { suffix := "k9", videoId := "n7" }

/-- A row with every optional column NULL, every flag off and no clicks. -/
def plainVideo (videoId filename : String) : Video :=
  { id := videoId
    filename := filename
    redirectUrl := none
    description := none
    bannerScript1 := none
    bannerScript2 := none
    bannerScript3 := none
    bannerScript4 := none
    bannerScript5 := none
    facebookRedirectUrl := none
    useCloaking := false
    useAntibot := false
    usePreview := false
    useVisitCounter := false
    previewTitle := none
    previewImage := none
    visitCounterScript := none
    clickCount := 0 }

/-- A table holding one row whose `useAntibot` flag is on. -/
def guardedState : State :=
  { videos := [{ plainVideo "v1" "videos/a1.mp4" with useAntibot := true }]
    objects := [("videos/a1.mp4", "bytes")] }

/-- A row with a generic redirect target. -/
def redirectRow : Video :=
  { plainVideo "v2" "videos/a2.mp4" with redirectUrl := some "https://example.org/landing" }

/-- A table holding one row with a generic redirect target. -/
def redirectState : State :=
  { videos := [redirectRow]
    objects := [("videos/a2.mp4", "bytes")] }

/-- A table holding one row with a Facebook redirect target and `useAntibot` off. -/
def facebookState : State :=
  { videos := [{ plainVideo "v3" "videos/a3.mp4" with
                  facebookRedirectUrl := some "https://example.org/fb" }]
    objects := [("videos/a3.mp4", "bytes")] }

/-- A table holding one row with a description. -/
def describedState : State :=
  { videos := [{ plainVideo "v4" "videos/a4.mp4" with description := some "old text" }]
    objects := [("videos/a4.mp4", "bytes")] }

/-- The valid admin credentials. -/
def adminAuth : Option (String × String) := some ("Josejagl", "Jose2211$")

/-- A browser's `GET /video/<id>` with the given user-agent header. -/
def viewRequest (videoId userAgent : String) : Request :=
  { method := Method.get
    path := ["video", videoId]
    userAgent := some userAgent
    auth := none
    body := Body.empty }

/-- The two stores before anything was uploaded. -/
def emptyState : State := { videos := [], objects := [] }

/-- A `POST /upload` carrying a file and two form fields. -/
def sampleUpload : Request :=
  { method := Method.post
    path := ["upload"]
    userAgent := none
    auth := none
    body := Body.multipart [("description", "a clip"), ("useAntibot", "on")]
      [("video", { originalname := "clip.mp4", content := "bytes" })] true }

/-- A `POST /upload` whose multipart body has form fields and no file. -/
def uploadNoFile : Request :=
  { method := Method.post
    path := ["upload"]
    userAgent := none
    auth := none
    body := Body.multipart [("description", "a clip")] [] true }

/-- An authenticated `GET /admin/videos/<id>/delete`. -/
def deleteRequest (videoId : String) : Request :=
  { method := Method.get
    path := ["admin", "videos", videoId, "delete"]
    userAgent := none
    auth := adminAuth
    body := Body.empty }

/-- An authenticated post of the edit form of row `v4`, as a browser sends it: the field
`description` in an `application/x-www-form-urlencoded` body. -/
def editFormPost : Request :=
  { method := Method.post
    path := ["admin", "videos", "v4", "edit"]
    userAgent := none
    auth := adminAuth
    body := Body.urlencoded [("description", "new text")] }

/-- A post to the edit route without credentials whose JSON body does not parse. -/
def malformedAdminPost : Request :=
  { method := Method.post
    path := ["admin", "videos", "v4", "edit"]
    userAgent := none
    auth := none
    body := Body.jsonRejected ParseFailure.malformed }

/-- A `POST /upload` without a file whose JSON body is over the parser's size limit. -/
def oversizeUpload : Request :=
  { method := Method.post
    path := ["upload"]
    userAgent := none
    auth := none
    body := Body.jsonRejected ParseFailure.tooLarge }

/-- A request for the admin delete route without credentials. -/
def anonymousDelete : Request :=
  { method := Method.get
    path := ["admin", "videos", "v4", "delete"]
    userAgent := none
    auth := none
    body := Body.empty }

/-- A table holding one row with `useAntibot` on and a Facebook redirect target. -/
def guardedFacebookState : State :=
  { videos := [{ plainVideo "v5" "videos/a5.mp4" with
                  useAntibot := true
                  facebookRedirectUrl := some "https://example.org/fb" }]
    objects := [("videos/a5.mp4", "bytes")] }

/-! ## Facts about strings -/

theorem startsWith_iff (l pat : List Char) : startsWith l pat = true ↔ pat <+: l := by
  induction pat generalizing l with
  | nil => simp [startsWith]
  | cons p ps ih =>
    cases l with
    | nil => simp [startsWith]
    | cons c cs =>
      simp only [startsWith, Bool.and_eq_true, beq_iff_eq, ih, List.cons_prefix_cons]
      constructor
      · rintro ⟨h, h2⟩; exact ⟨h.symm, h2⟩
      · rintro ⟨h, h2⟩; exact ⟨h.symm, h2⟩

theorem includesAt_iff (l pat : List Char) : includesAt l pat = true ↔ pat <:+: l := by
  induction l with
  | nil =>
    simp only [includesAt, startsWith_iff]
    constructor
    · intro h; exact h.isInfix
    · intro h
      have := List.eq_nil_of_infix_nil h
      subst this; exact List.prefix_refl _
  | cons c cs ih =>
    simp only [includesAt, Bool.or_eq_true, startsWith_iff, ih, List.infix_cons_iff]

theorem includes_iff (s pat : String) : includes s pat = true ↔ pat.data <:+: s.data :=
  includesAt_iff s.data pat.data

theorem toNat_ofNat_small (m : Nat) (h : m < 200) : (Char.ofNat m).toNat = m := by
  interval_cases m <;> rfl

theorem toLower_toLower (c : Char) : c.toLower.toLower = c.toLower := by
  unfold Char.toLower
  simp only []
  by_cases h : c.toNat ≥ 65 ∧ c.toNat ≤ 90
  · have h2 : (Char.ofNat (c.toNat + 32)).toNat = c.toNat + 32 := toNat_ofNat_small _ (by omega)
    rw [if_pos h, h2, if_neg (by omega)]
  · rw [if_neg h, if_neg h]

theorem toLower_toUpper (c : Char) : c.toUpper.toLower = c.toLower := by
  unfold Char.toUpper
  simp only []
  by_cases h : c.toNat ≥ 97 ∧ c.toNat ≤ 122
  · rw [if_pos h]
    have h2 : (Char.ofNat (c.toNat - 32)).toNat = c.toNat - 32 := toNat_ofNat_small _ (by omega)
    unfold Char.toLower
    simp only []
    rw [h2, if_pos (by omega), if_neg (by omega)]
    have h3 : c.toNat - 32 + 32 = c.toNat := by omega
    rw [h3]; exact Char.ofNat_toNat c
  · rw [if_neg h]

theorem caseVariant_lower (l l' : List Char) (h : caseVariant l l' = true) :
    l'.map Char.toLower = l.map Char.toLower := by
  induction l generalizing l' with
  | nil =>
    cases l' with
    | nil => rfl
    | cons d ds => simp [caseVariant] at h
  | cons c cs ih =>
    cases l' with
    | nil => simp [caseVariant] at h
    | cons d ds =>
      simp only [caseVariant, Bool.and_eq_true, Bool.or_eq_true, beq_iff_eq] at h
      obtain ⟨hd, htl⟩ := h
      simp only [List.map_cons, ih ds htl, List.cons.injEq, and_true]
      rcases hd with (hd | hd) | hd
      · rw [hd]
      · rw [hd, toLower_toLower]
      · rw [hd, toLower_toUpper]

/-- On ASCII text `isBot` searches the ASCII lower-casing, whatever the runtime. -/
theorem isBot_ascii (lib : Lib) (ua : String) (h : isAsciiText ua = true) :
    isBot lib ua = botList.any (fun bot => includes (asciiLower ua) bot) := by
  unfold isBot
  rw [lib.toLowerCase_ascii ua h]

/-- On ASCII text `isFacebookBot` searches the ASCII lower-casing, whatever the runtime. -/
theorem isFacebookBot_ascii (lib : Lib) (ua : String) (h : isAsciiText ua = true) :
    isFacebookBot lib ua = includes (asciiLower ua) "facebookexternalhit" := by
  unfold isFacebookBot
  rw [lib.toLowerCase_ascii ua h]

/-! ## The viewer handler -/

/-- A result row has no property named `useAntibot`: the column is `useantibot`. -/
theorem resultRow_useAntibot (v : Video) :
    (resultRow v).get "useAntibot" = JsVal.undefined := rfl

/-- A result row has no property named `facebookRedirectUrl`. -/
theorem resultRow_facebookRedirectUrl (v : Video) :
    (resultRow v).get "facebookRedirectUrl" = JsVal.undefined := rfl

/-- A result row has no property named `redirectUrl`. -/
theorem resultRow_redirectUrl (v : Video) :
    (resultRow v).get "redirectUrl" = JsVal.undefined := rfl

/-- The stored flag is found under the folded name, the one the handler does not read. -/
theorem resultRow_useantibot (v : Video) :
    (resultRow v).get "useantibot" = JsVal.bool v.useAntibot := rfl

/-- For a stored id the viewer handler falls through its three policy tests and renders
the page, leaving both stores as they were. -/
theorem viewVideo_found (lib : Lib) (s : State) (videoId : String) (ua : Option String)
    (row : Video) (h : selectById s.videos videoId = some row) :
    viewVideo lib s videoId ua =
      ⟨s, Response.page Page.viewer, [Call.selectVideo videoId, Call.selectRelated videoId]⟩ := by
  unfold viewVideo
  rw [h]
  simp [resultRow_useAntibot, resultRow_facebookRedirectUrl, resultRow_redirectUrl, JsVal.truthy]

/-- For an unknown id the viewer handler answers 404. -/
theorem viewVideo_missing (lib : Lib) (s : State) (videoId : String) (ua : Option String)
    (h : selectById s.videos videoId = none) :
    viewVideo lib s videoId ua =
      ⟨s, Response.send 404 "Video no encontrado", [Call.selectVideo videoId]⟩ := by
  unfold viewVideo
  rw [h]

/-- The viewer handler never changes the stores. -/
theorem viewVideo_state (lib : Lib) (s : State) (videoId : String) (ua : Option String) :
    (viewVideo lib s videoId ua).state = s := by
  cases h : selectById s.videos videoId with
  | none => rw [viewVideo_missing lib s videoId ua h]
  | some row => rw [viewVideo_found lib s videoId ua row h]

/-! ## Claims C1 to C3: the viewer's policy tests -/

/-- C1, evaluated on the code: the table holds a row whose `useAntibot` flag is true and
the request's user agent is `Googlebot/2.1`, which `isBot` classifies as a bot, yet
`GET /video/v1` is answered with the rendered page (status 200), not with 403.  This
holds whatever the user-agent library returns, because the test reads the property
`useAntibot`, which the result row does not have. -/
theorem antibot_row_served_to_bot (lib : Lib) (gen : Fresh) :
    (∀ v ∈ guardedState.videos, v.useAntibot = true) ∧
    isBot lib "Googlebot/2.1" = true ∧
    handle lib gen guardedState (viewRequest "v1" "Googlebot/2.1") =
      ⟨guardedState, Response.page Page.viewer,
        [Call.selectVideo "v1", Call.selectRelated "v1"]⟩ ∧
    (handle lib gen guardedState (viewRequest "v1" "Googlebot/2.1")).response.statusCode ≠ 403 := by
  refine ⟨by decide, ?_, rfl, ?_⟩
  · rw [isBot_ascii lib _ (by decide)]
    decide
  · show (Response.page Page.viewer).statusCode ≠ 403
    decide

/-- C2, evaluated on the code: the table holds a row with `redirectUrl` set, the request
comes from an ordinary browser, yet `GET /video/v2` is answered with the rendered page
instead of a redirect, and the row's `clickCount` is still 0 afterwards. -/
theorem redirect_row_not_redirected (lib : Lib) (gen : Fresh) :
    redirectState.row "v2" = some redirectRow ∧
    redirectRow.redirectUrl = some "https://example.org/landing" ∧
    isBot lib "Mozilla/5.0 (X11; Linux x86_64) Firefox/128.0" = false ∧
    (handle lib gen redirectState
      (viewRequest "v2" "Mozilla/5.0 (X11; Linux x86_64) Firefox/128.0")).response =
        Response.page Page.viewer ∧
    ((handle lib gen redirectState
      (viewRequest "v2" "Mozilla/5.0 (X11; Linux x86_64) Firefox/128.0")).state.row "v2").map
        (fun v => v.clickCount) = some 0 := by
  refine ⟨by decide, by decide, ?_, rfl, ?_⟩
  · rw [isBot_ascii lib _ (by decide)]
    decide
  · show (redirectState.row "v2").map (fun v => v.clickCount) = some 0
    decide

/-- C3, evaluated on the code: the table holds a row with `facebookRedirectUrl` set and
`useAntibot` off, the request's user agent contains `facebookexternalhit`, yet
`GET /video/v3` is answered with the rendered page instead of a redirect to the
Facebook target. -/
theorem facebook_row_not_redirected (lib : Lib) (gen : Fresh) :
    (∀ v ∈ facebookState.videos,
      v.facebookRedirectUrl = some "https://example.org/fb" ∧ v.useAntibot = false) ∧
    isFacebookBot lib "facebookexternalhit/1.1" = true ∧
    (handle lib gen facebookState (viewRequest "v3" "facebookexternalhit/1.1")).response =
      Response.page Page.viewer ∧
    (handle lib gen facebookState (viewRequest "v3" "facebookexternalhit/1.1")).response ≠
      Response.redirect "https://example.org/fb" := by
  refine ⟨by decide, ?_, rfl, ?_⟩
  · rw [isFacebookBot_ascii lib _ (by decide)]
    decide
  · show Response.page Page.viewer ≠ Response.redirect "https://example.org/fb"
    decide

/-! ## The middleware chain -/

/-- A request that passes the body parser and the credential check reaches its route. -/
theorem handle_routed (lib : Lib) (gen : Fresh) (s : State) (req : Request) (parsed : JsObject)
    (route : Route) (hbody : expressJson req.body = Except.ok parsed)
    (hgate : underAdmin req.path = false ∨ authorized req.auth = true)
    (hroute : dispatch req.method req.path = some route) :
    handle lib gen s req = runRoute lib gen s req parsed route := by
  unfold handle
  rw [hbody]
  have hg : (underAdmin req.path && !authorized req.auth) = false := by
    rcases hgate with h | h <;> simp [h]
  simp only [hg, hroute]
  simp

/-- The upload route is reached by `POST` on a one-segment path outside `/admin`. -/
theorem dispatch_upload (m : Method) (p : List String) (h : dispatch m p = some Route.upload) :
    underAdmin p = false := by
  unfold dispatch at h
  split at h
  · rename_i a
    by_cases ha : segIs a "upload" = true
    · simp only [underAdmin]
      simp only [segIs, beq_iff_eq] at ha ⊢
      rw [ha]; decide
    · simp [ha] at h
  all_goals (repeat (split at h)) <;> simp at h

/-- The body parser accepts every body except the JSON bodies it rejects. -/
theorem expressJson_accepts (b : Body) (h : ∀ why, b ≠ Body.jsonRejected why) :
    ∃ parsed, expressJson b = Except.ok parsed := by
  cases b with
  | jsonRejected why => exact absurd rfl (h why)
  | empty => exact ⟨_, rfl⟩
  | json obj => exact ⟨_, rfl⟩
  | urlencoded fields => exact ⟨_, rfl⟩
  | multipart fields files intact => exact ⟨_, rfl⟩

/-- A `GET /video/<id>` without body is handled by the viewer handler. -/
theorem handle_view (lib : Lib) (gen : Fresh) (s : State) (videoId : String)
    (ua : Option String) (auth : Option (String × String)) :
    handle lib gen s ⟨Method.get, ["video", videoId], ua, auth, Body.empty⟩ =
      viewVideo lib s videoId ua := rfl

/-! ## Claims C4 to C6: upload and delete -/

/-- After a successful insert the new row is found under its id. -/
theorem selectById_insertVideo (vs vs' : List Video) (row : Video)
    (h : insertVideo vs row = some vs') : selectById vs' row.id ≠ none := by
  unfold insertVideo at h
  split at h
  · simp at h
  · simp only [Option.some.injEq] at h
    subst h
    simp [selectById]

/-- No row carries an id exactly when the lookup of that id finds nothing. -/
theorem selectById_none_iff (vs : List Video) (videoId : String) :
    selectById vs videoId = none ↔ ∀ v ∈ vs, v.id ≠ videoId := by
  simp [selectById]

/-- The upload handler answers with success only after inserting the row. -/
theorem uploadHandler_success (s : State) (file : Option String) (body : JsObject)
    (videoId : String) (issued : List Call) (url : String)
    (h : (uploadHandler s file body videoId issued).response = Response.json 200 true url) :
    url = "/video/" ++ videoId ∧
      selectById (uploadHandler s file body videoId issued).state.videos videoId ≠ none := by
  unfold uploadHandler at h ⊢
  cases file with
  | none => simp at h
  | some filename =>
    simp only at h ⊢
    cases hi : insertVideo s.videos (newVideo videoId filename body) with
    | none => rw [hi] at h; simp at h
    | some vs =>
      rw [hi] at h
      simp only [Response.json.injEq, true_and] at h
      refine ⟨h.symm, ?_⟩
      exact selectById_insertVideo s.videos vs (newVideo videoId filename body) hi

/-- The upload route: the handler runs on what the upload middleware accepted, and a
body the middleware rejects is answered by the error handler. -/
theorem runRoute_upload (lib : Lib) (gen : Fresh) (s : State) (req : Request)
    (parsed : JsObject) (s1 : State) (r : Option (Option String × JsObject))
    (issued : List Call)
    (hu : uploadSingle lib s parsed req.body gen.suffix = (s1, r, issued)) :
    runRoute lib gen s req parsed Route.upload =
      match r with
      | some fb => uploadHandler s1 fb.1 fb.2 gen.videoId issued
      | none => ⟨s1, Response.uploadRejected, issued⟩ := by
  simp only [runRoute, hu]
  cases r with
  | none => rfl
  | some fb => rfl

/-- The upload middleware does not touch the table. -/
theorem uploadSingle_videos (lib : Lib) (s : State) (parsed : JsObject) (body : Body)
    (suffix : String) : (uploadSingle lib s parsed body suffix).1.videos = s.videos := by
  unfold uploadSingle
  split
  · split
    · split <;> rfl
    · simp only
      split
      · split <;> rfl
      · rfl
  · rfl

/-- The upload middleware hands a file to the handler only when the body carries one. -/
theorem uploadSingle_file (lib : Lib) (s : State) (parsed : JsObject) (body : Body)
    (suffix : String) (s1 : State) (key : String) (b : JsObject) (issued : List Call)
    (hu : uploadSingle lib s parsed body suffix = (s1, some (some key, b), issued)) :
    body.attachedFile ≠ none := by
  unfold uploadSingle at hu
  cases body with
  | multipart fields files intact =>
    cases files with
    | nil =>
      simp only at hu
      split at hu <;> simp at hu
    | cons part rest => simp [Body.attachedFile]
  | empty => simp at hu
  | json obj => simp at hu
  | jsonRejected why => simp at hu
  | urlencoded fields => simp at hu

/-- Without a file the upload middleware stores nothing: it passes the body on, or fails
when a multipart body is not intact. -/
theorem uploadSingle_no_file (lib : Lib) (s : State) (parsed : JsObject) (body : Body)
    (suffix : String) (h : body.attachedFile = none) :
    ∃ r, uploadSingle lib s parsed body suffix = (s, r, []) ∧
      (r = none ↔ ∃ fields, body = Body.multipart fields [] false) ∧
      (∀ fb, r = some fb → fb.1 = none) := by
  unfold uploadSingle
  cases body with
  | multipart fields files intact =>
    cases files with
    | nil =>
      cases intact with
      | true => exact ⟨_, rfl, by simp, by simp⟩
      | false => exact ⟨_, rfl, by simp, by simp⟩
    | cons part rest => simp [Body.attachedFile] at h
  | empty => exact ⟨_, rfl, by simp, by simp⟩
  | json obj => exact ⟨_, rfl, by simp, by simp⟩
  | jsonRejected why => exact ⟨_, rfl, by simp, by simp⟩
  | urlencoded fields => exact ⟨_, rfl, by simp, by simp⟩

/-- C4: when an upload request is answered `{success: true, url}`, the url is `/video/`
followed by the generated id, the inserted row is found under that id, and a following
`GET /video/<id>` (any user agent, any credentials) is answered 200 or with a redirect,
never 404.  A success answer implies that the request carried a file. -/
theorem uploaded_video_is_served (lib : Lib) (gen gen' : Fresh) (s : State) (req : Request)
    (url : String) (ua : Option String) (auth : Option (String × String))
    (hroute : dispatch req.method req.path = some Route.upload)
    (hok : (handle lib gen s req).response = Response.json 200 true url) :
    req.body.attachedFile ≠ none ∧
    url = "/video/" ++ gen.videoId ∧
    (handle lib gen s req).state.row gen.videoId ≠ none ∧
    (((handle lib gen' (handle lib gen s req).state
        ⟨Method.get, ["video", gen.videoId], ua, auth, Body.empty⟩).response.statusCode = 200 ∨
      (handle lib gen' (handle lib gen s req).state
        ⟨Method.get, ["video", gen.videoId], ua, auth, Body.empty⟩).response.statusCode = 302) ∧
     (handle lib gen' (handle lib gen s req).state
        ⟨Method.get, ["video", gen.videoId], ua, auth, Body.empty⟩).response.statusCode ≠ 404) := by
  have hgate := dispatch_upload req.method req.path hroute
  cases hb : expressJson req.body with
  | error why =>
    unfold handle at hok
    rw [hb] at hok
    simp at hok
  | ok parsed =>
    rw [handle_routed lib gen s req parsed Route.upload hb (Or.inl hgate) hroute] at hok ⊢
    rcases hu : uploadSingle lib s parsed req.body gen.suffix with ⟨s1, r, issued⟩
    rw [runRoute_upload lib gen s req parsed s1 r issued hu] at hok ⊢
    cases r with
    | none => simp at hok
    | some fb =>
      obtain ⟨file, b⟩ := fb
      simp only at hok ⊢
      obtain ⟨hurl, hrow⟩ := uploadHandler_success _ _ _ _ _ url hok
      have hfile : req.body.attachedFile ≠ none := by
        cases file with
        | none => simp [uploadHandler] at hok
        | some key => exact uploadSingle_file lib s parsed req.body gen.suffix s1 key b issued hu
      refine ⟨hfile, hurl, hrow, ?_⟩
      rw [handle_view]
      cases hsel : selectById (uploadHandler s1 file b gen.videoId issued).state.videos
          gen.videoId with
      | none => exact absurd hsel hrow
      | some row =>
        rw [viewVideo_found lib _ gen.videoId ua row hsel]
        simp [Response.statusCode]

/-- Witness of C4 on an empty table: the upload succeeds with url `/video/n7` and the
following `GET /video/n7` is not answered 404. -/
theorem uploaded_video_is_served_witness :
    dispatch sampleUpload.method sampleUpload.path = some Route.upload ∧
    (handle sampleLib sampleFresh emptyState sampleUpload).response =
      Response.json 200 true "/video/n7" ∧
    (handle sampleLib sampleFresh (handle sampleLib sampleFresh emptyState sampleUpload).state
      ⟨Method.get, ["video", "n7"], some "Googlebot/2.1", none, Body.empty⟩).response.statusCode
        ≠ 404 :=
  ⟨by decide, by decide,
    (uploaded_video_is_served sampleLib sampleFresh sampleFresh emptyState sampleUpload
      "/video/n7" (some "Googlebot/2.1") none (by decide) (by decide)).2.2.2.2⟩

/-- The answer to an upload request without a file: the error handler's answer when
`express.json()` or the upload middleware rejects the body, and the handler's 400
otherwise. -/
theorem upload_without_file_response (lib : Lib) (gen : Fresh) (s : State) (req : Request)
    (hroute : dispatch req.method req.path = some Route.upload)
    (hfile : req.body.attachedFile = none) :
    handle lib gen s req =
      ⟨s,
        (match req.body with
          | Body.jsonRejected why => Response.badBody why
          | Body.multipart _ _ false => Response.uploadRejected
          | _ => Response.json 400 false "No se recibió ningún archivo de video"),
        []⟩ := by
  have hgate := dispatch_upload req.method req.path hroute
  cases hbody : req.body with
  | jsonRejected why =>
    unfold handle
    rw [hbody]
    rfl
  | empty =>
    rw [handle_routed lib gen s req [] Route.upload (by rw [hbody]; rfl) (Or.inl hgate) hroute]
    simp only [runRoute, hbody]
    rfl
  | json obj =>
    rw [handle_routed lib gen s req obj Route.upload (by rw [hbody]; rfl) (Or.inl hgate) hroute]
    simp only [runRoute, hbody]
    rfl
  | urlencoded fields =>
    rw [handle_routed lib gen s req [] Route.upload (by rw [hbody]; rfl) (Or.inl hgate) hroute]
    simp only [runRoute, hbody]
    rfl
  | multipart fields files intact =>
    rw [hbody] at hfile
    cases files with
    | cons part rest => simp [Body.attachedFile] at hfile
    | nil =>
      rw [handle_routed lib gen s req [] Route.upload (by rw [hbody]; rfl) (Or.inl hgate) hroute]
      simp only [runRoute, hbody]
      cases intact <;> rfl

/-- A multipart body whose only file part is under a field other than `video` is
rejected by the upload middleware: the request is answered 500 and nothing is stored. -/
theorem upload_other_field_rejected (lib : Lib) (gen : Fresh) (s : State)
    (fields : List (String × String)) (file : UploadedFile) :
    handle lib gen s
        ⟨Method.post, ["upload"], none, none, Body.multipart fields [("photo", file)] true⟩ =
      ⟨s, Response.uploadRejected, []⟩ := rfl

/-- A multipart body with a second file part is rejected by the upload middleware: the
file it has written is removed again and the request is answered 500, with no row
inserted. -/
theorem upload_second_file_rejected (lib : Lib) (gen : Fresh) (s : State)
    (fields : List (String × String)) (file extra : UploadedFile) :
    (handle lib gen s
        ⟨Method.post, ["upload"], none, none,
          Body.multipart fields [("video", file), ("video", extra)] true⟩).response =
      Response.uploadRejected ∧
    (handle lib gen s
        ⟨Method.post, ["upload"], none, none,
          Body.multipart fields [("video", file), ("video", extra)] true⟩).state.videos =
      s.videos := ⟨rfl, rfl⟩

/-- C5 as stated fails: a `POST /upload` without a file whose JSON body is over the
size limit of `express.json()` is answered 413 by the parser, not 400. -/
theorem upload_oversize_body_not_400 :
    dispatch oversizeUpload.method oversizeUpload.path = some Route.upload ∧
    oversizeUpload.body.attachedFile = none ∧
    (handle sampleLib sampleFresh describedState oversizeUpload).response.statusCode = 413 ∧
    (handle sampleLib sampleFresh describedState oversizeUpload).response.statusCode ≠ 400 := by
  decide

/-- C5, amended: an upload request with no file attached is answered 400 by the handler,
except that a JSON body rejected by `express.json()` is answered with the parser's status
(400, 413 or 415) and a multipart body the upload middleware cannot process is answered
500; in every case neither store is touched: the table and the bucket are as before and
no store call is issued. -/
theorem upload_without_file (lib : Lib) (gen : Fresh) (s : State) (req : Request)
    (hroute : dispatch req.method req.path = some Route.upload)
    (hfile : req.body.attachedFile = none) :
    ((∀ why, req.body ≠ Body.jsonRejected why) →
      (∀ fields, req.body ≠ Body.multipart fields [] false) →
      (handle lib gen s req).response =
        Response.json 400 false "No se recibió ningún archivo de video" ∧
      (handle lib gen s req).response.statusCode = 400) ∧
    (∀ why, req.body = Body.jsonRejected why →
      (handle lib gen s req).response = Response.badBody why ∧
      ((handle lib gen s req).response.statusCode = 400 ∨
       (handle lib gen s req).response.statusCode = 413 ∨
       (handle lib gen s req).response.statusCode = 415)) ∧
    (∀ fields, req.body = Body.multipart fields [] false →
      (handle lib gen s req).response = Response.uploadRejected ∧
      (handle lib gen s req).response.statusCode = 500) ∧
    (handle lib gen s req).state = s ∧
    (handle lib gen s req).state.videos = s.videos ∧
    (handle lib gen s req).state.objects = s.objects ∧
    (handle lib gen s req).calls = [] := by
  rw [upload_without_file_response lib gen s req hroute hfile]
  refine ⟨?_, ?_, ?_, rfl, rfl, rfl, rfl⟩
  · intro hj hm
    cases hbody : req.body with
    | jsonRejected why => exact absurd hbody (hj why)
    | empty => exact ⟨rfl, rfl⟩
    | json obj => exact ⟨rfl, rfl⟩
    | urlencoded fields => exact ⟨rfl, rfl⟩
    | multipart fields files intact =>
      rw [hbody] at hfile
      cases files with
      | cons part rest => simp [Body.attachedFile] at hfile
      | nil =>
        cases intact with
        | false => exact absurd hbody (hm fields)
        | true => exact ⟨rfl, rfl⟩
  · intro why hbody
    rw [hbody]
    refine ⟨rfl, ?_⟩
    cases why
    · exact Or.inl rfl
    · exact Or.inr (Or.inl rfl)
    · exact Or.inr (Or.inr rfl)
  · intro fields hbody
    rw [hbody]
    exact ⟨rfl, rfl⟩

/-- Witness of the amended C5: a multipart upload without a file part, on a table with
one row, is answered 400 and changes nothing. -/
theorem upload_without_file_witness :
    dispatch uploadNoFile.method uploadNoFile.path = some Route.upload ∧
    uploadNoFile.body.attachedFile = none ∧
    (handle sampleLib sampleFresh describedState uploadNoFile).response.statusCode = 400 ∧
    (handle sampleLib sampleFresh describedState uploadNoFile).state = describedState :=
  ⟨by decide, by decide,
    ((upload_without_file sampleLib sampleFresh describedState uploadNoFile
      (by decide) (by decide)).1
      (by intro why h; simp [uploadNoFile] at h)
      (by intro fields h; simp [uploadNoFile] at h)).2,
    (upload_without_file sampleLib sampleFresh describedState uploadNoFile
      (by decide) (by decide)).2.2.2.1⟩

/-- C6: for an id that is the key of no row, the admin delete operation answers 404,
issues no object-store delete call (its only store call is the DELETE statement, which
matches nothing) and leaves the table and the bucket unchanged; and this is what every
request routed to `GET /admin/videos/:id/delete` is answered with once it has passed the
body parser and the credential check. -/
theorem delete_unknown_id (lib : Lib) (s : State) (videoId : String)
    (hmiss : ∀ v ∈ s.videos, v.id ≠ videoId) :
    ((adminDelete lib s videoId).response.statusCode = 404 ∧
     (∀ key, Call.deleteObject key ∉ (adminDelete lib s videoId).calls) ∧
     (adminDelete lib s videoId).state = s) ∧
    ∀ (gen : Fresh) (req : Request),
      dispatch req.method req.path = some (Route.adminDelete videoId) →
      authorized req.auth = true →
      (∀ why, req.body ≠ Body.jsonRejected why) →
      (handle lib gen s req).response.statusCode = 404 ∧
      (∀ key, Call.deleteObject key ∉ (handle lib gen s req).calls) ∧
      (handle lib gen s req).state = s := by
  have hsel : selectById s.videos videoId = none := (selectById_none_iff s.videos videoId).2 hmiss
  have hd : adminDelete lib s videoId =
      ⟨s, Response.send 404 "Video no encontrado", [Call.deleteRow videoId]⟩ := by
    simp [adminDelete, hsel]
  have hhandler : (adminDelete lib s videoId).response.statusCode = 404 ∧
      (∀ key, Call.deleteObject key ∉ (adminDelete lib s videoId).calls) ∧
      (adminDelete lib s videoId).state = s := by
    rw [hd]
    simp [Response.statusCode]
  refine ⟨hhandler, ?_⟩
  intro gen req hroute hauth hbody
  obtain ⟨parsed, hb⟩ := expressJson_accepts req.body hbody
  rw [handle_routed lib gen s req parsed (Route.adminDelete videoId) hb (Or.inr hauth) hroute]
  exact hhandler

/-- Witness of C6: deleting the id `zz` from a table whose only row has id `v4`. -/
theorem delete_unknown_id_witness :
    (adminDelete sampleLib describedState "zz").response.statusCode = 404 ∧
    (handle sampleLib sampleFresh describedState (deleteRequest "zz")).response.statusCode = 404 ∧
    (handle sampleLib sampleFresh describedState (deleteRequest "zz")).state = describedState :=
  ⟨(delete_unknown_id sampleLib describedState "zz" (by decide)).1.1,
    ((delete_unknown_id sampleLib describedState "zz" (by decide)).2 sampleFresh
      (deleteRequest "zz") (by decide) (by decide)
      (by intro why h; simp [deleteRequest] at h)).1,
    ((delete_unknown_id sampleLib describedState "zz" (by decide)).2 sampleFresh
      (deleteRequest "zz") (by decide) (by decide)
      (by intro why h; simp [deleteRequest] at h)).2.2⟩

/-! ## Claims C7 and C8: the admin routes -/

/-- The edit handler stores the `description` property of a parsed JSON body. -/
theorem adminEditPost_json (s : State) (videoId d : String) :
    (adminEditPost s videoId [("description", JsVal.str d)]).state.videos =
      setDescription s.videos videoId (some d) := rfl

/-- The edit handler changes nothing but the description column of the rows with the
given id. -/
theorem setDescription_frame (vs : List Video) (videoId : String) (d : Option String) :
    (setDescription vs videoId d).map (fun v => { v with description := none }) =
      vs.map (fun v => { v with description := none }) := by
  induction vs with
  | nil => rfl
  | cons v vs ih =>
    simp only [setDescription, List.map_cons, List.cons.injEq] at ih ⊢
    refine ⟨?_, ih⟩
    split <;> rfl

/-- Storing the same description twice is the same as storing it once. -/
theorem setDescription_idem (vs : List Video) (videoId : String) (d : Option String) :
    setDescription (setDescription vs videoId d) videoId d = setDescription vs videoId d := by
  induction vs with
  | nil => rfl
  | cons v vs ih =>
    simp only [setDescription, List.map_cons, List.cons.injEq] at ih ⊢
    refine ⟨?_, ih⟩
    by_cases h : (v.id == videoId) = true <;> simp [h]

/-- C7, evaluated on the code: row `v4` has the description `old text`; the edit form is
posted with valid credentials and the value `new text`.  The handler redirects to the
list, and the stored description is NULL, not the submitted value: the form body is
url-encoded, only `express.json()` is installed, so `req.body.description` is
`undefined`. -/
theorem form_edit_stores_null (lib : Lib) (gen : Fresh) :
    (describedState.row "v4").map (fun v => v.description) = some (some "old text") ∧
    authorized editFormPost.auth = true ∧
    editFormPost.body = Body.urlencoded [("description", "new text")] ∧
    (handle lib gen describedState editFormPost).response = Response.redirect "/admin/videos" ∧
    ((handle lib gen describedState editFormPost).state.row "v4").map (fun v => v.description) =
      some none ∧
    ((handle lib gen describedState editFormPost).state.row "v4").map (fun v => v.description) ≠
      some (some "new text") := by
  refine ⟨by decide, by decide, rfl, rfl, ?_, ?_⟩
  · show (State.row ⟨[plainVideo "v4" "videos/a4.mp4"], [("videos/a4.mp4", "bytes")]⟩ "v4").map
      (fun v => v.description) = some none
    decide
  · show (State.row ⟨[plainVideo "v4" "videos/a4.mp4"], [("videos/a4.mp4", "bytes")]⟩ "v4").map
      (fun v => v.description) ≠ some (some "new text")
    decide

/-- The authorizer accepts exactly the one configured user and password. -/
theorem authorized_iff (auth : Option (String × String)) :
    authorized auth = true ↔ auth = some ("Josejagl", "Jose2211$") := by
  cases auth with
  | none => simp [authorized]
  | some up =>
    obtain ⟨u, p⟩ := up
    simp [authorized, adminUsers]

/-- C8 as stated fails: a request under `/admin` without credentials whose JSON body
does not parse is answered 400 by `express.json()`, which runs before the credential
check, and not 401. -/
theorem admin_malformed_body_not_401 :
    underAdmin malformedAdminPost.path = true ∧
    malformedAdminPost.auth ≠ some ("Josejagl", "Jose2211$") ∧
    (handle sampleLib sampleFresh describedState malformedAdminPost).response =
      Response.badBody ParseFailure.malformed ∧
    (handle sampleLib sampleFresh describedState malformedAdminPost).response.statusCode = 400 ∧
    (handle sampleLib sampleFresh describedState malformedAdminPost).response.statusCode ≠ 401 := by
  decide

/-- C8, amended: a request to any path under `/admin` that does not carry the valid
admin credentials is answered 401, unless its JSON body is rejected by the body parser,
which runs before the credential check; then it is answered with the parser's status,
400, 413 or 415.  In both cases no route handler runs: no store call is issued and the
table and the bucket are unchanged. -/
theorem admin_gate (lib : Lib) (gen : Fresh) (s : State) (req : Request)
    (hpath : underAdmin req.path = true)
    (hcred : req.auth ≠ some ("Josejagl", "Jose2211$")) :
    ((∀ why, req.body ≠ Body.jsonRejected why) →
      (handle lib gen s req).response = Response.unauthorized ∧
      (handle lib gen s req).response.statusCode = 401) ∧
    (∀ why, req.body = Body.jsonRejected why →
      (handle lib gen s req).response = Response.badBody why ∧
      ((handle lib gen s req).response.statusCode = 400 ∨
       (handle lib gen s req).response.statusCode = 413 ∨
       (handle lib gen s req).response.statusCode = 415)) ∧
    (handle lib gen s req).calls = [] ∧
    (handle lib gen s req).state = s := by
  have hauth : authorized req.auth = false := by
    cases h : authorized req.auth with
    | false => rfl
    | true => exact absurd ((authorized_iff req.auth).1 h) hcred
  cases hb : expressJson req.body with
  | error why =>
    have hrej : req.body = Body.jsonRejected why := by
      cases hbody : req.body <;> rw [hbody] at hb <;> simp [expressJson] at hb ⊢
      exact hb
    have hout : handle lib gen s req = ⟨s, Response.badBody why, []⟩ := by
      unfold handle
      rw [hb]
    rw [hout]
    refine ⟨fun hno => absurd hrej (hno why), ?_, rfl, rfl⟩
    intro why' hbody
    rw [hrej] at hbody
    simp only [Body.jsonRejected.injEq] at hbody
    subst hbody
    refine ⟨rfl, ?_⟩
    cases why
    · exact Or.inl rfl
    · exact Or.inr (Or.inl rfl)
    · exact Or.inr (Or.inr rfl)
  | ok parsed =>
    have hout : handle lib gen s req = ⟨s, Response.unauthorized, []⟩ := by
      unfold handle
      rw [hb]
      simp [hpath, hauth]
    rw [hout]
    refine ⟨fun _ => ⟨rfl, rfl⟩, ?_, rfl, rfl⟩
    intro why hbody
    rw [hbody] at hb
    simp [expressJson] at hb

/-- Witness of the amended C8: the delete route requested without credentials. -/
theorem admin_gate_witness :
    (handle sampleLib sampleFresh describedState anonymousDelete).response = Response.unauthorized ∧
    (handle sampleLib sampleFresh describedState anonymousDelete).state = describedState :=
  ⟨((admin_gate sampleLib sampleFresh describedState anonymousDelete
      (by decide) (by decide)).1 (by intro why h; simp [anonymousDelete] at h)).1,
    (admin_gate sampleLib sampleFresh describedState anonymousDelete
      (by decide) (by decide)).2.2.2⟩

/-! ## Claim C9: the click counter -/

theorem selectById_nil (key : String) : selectById [] key = none := rfl

theorem selectById_cons (v : Video) (vs : List Video) (key : String) :
    selectById (v :: vs) key = if v.id = key then some v else selectById vs key := by
  by_cases h : v.id = key <;> simp [selectById, List.find?_cons, h]

theorem deleteById_cons (v : Video) (vs : List Video) (videoId : String) :
    deleteById (v :: vs) videoId =
      if v.id = videoId then deleteById vs videoId else v :: deleteById vs videoId := by
  by_cases h : v.id = videoId <;> simp [deleteById, List.filter_cons, h]

theorem setDescription_cons (v : Video) (vs : List Video) (videoId : String) (d : Option String) :
    setDescription (v :: vs) videoId d =
      (if v.id = videoId then { v with description := d } else v) :: setDescription vs videoId d := by
  by_cases h : v.id = videoId <;> simp [setDescription, h]

/-- Lookup after the description update: the same row with the new description. -/
theorem selectById_setDescription (vs : List Video) (videoId key : String) (d : Option String)
    (r' : Video) (h : selectById (setDescription vs videoId d) key = some r') :
    ∃ r, selectById vs key = some r ∧ r'.clickCount = r.clickCount := by
  induction vs with
  | nil => simp [setDescription, selectById] at h
  | cons v vs ih =>
    rw [setDescription_cons, selectById_cons] at h
    rw [selectById_cons]
    by_cases hv : v.id = videoId
    · rw [if_pos hv] at h
      by_cases hk : v.id = key
      · rw [if_pos hk] at h
        rw [if_pos hk]
        simp only [Option.some.injEq] at h
        exact ⟨v, rfl, by rw [← h]⟩
      · rw [if_neg hk] at h
        rw [if_neg hk]
        exact ih h
    · rw [if_neg hv] at h
      by_cases hk : v.id = key
      · rw [if_pos hk] at h
        rw [if_pos hk]
        simp only [Option.some.injEq] at h
        exact ⟨v, rfl, by rw [← h]⟩
      · rw [if_neg hk] at h
        rw [if_neg hk]
        exact ih h

/-- After a delete no row carries the deleted id. -/
theorem selectById_deleteById_self (vs : List Video) (videoId : String) :
    selectById (deleteById vs videoId) videoId = none := by
  induction vs with
  | nil => rfl
  | cons v vs ih =>
    rw [deleteById_cons]
    by_cases hv : v.id = videoId
    · rw [if_pos hv]; exact ih
    · rw [if_neg hv, selectById_cons, if_neg hv]; exact ih

/-- Lookup after a delete: a row that is still found was found before, unchanged. -/
theorem selectById_deleteById (vs : List Video) (videoId key : String) (r r' : Video)
    (hb : selectById vs key = some r) (h : selectById (deleteById vs videoId) key = some r') :
    r' = r := by
  induction vs with
  | nil => simp [selectById] at hb
  | cons v vs ih =>
    rw [selectById_cons] at hb
    rw [deleteById_cons] at h
    by_cases hv : v.id = videoId
    · rw [if_pos hv] at h
      by_cases hk : v.id = key
      · have hkey : key = videoId := by rw [← hk, hv]
        rw [hkey, selectById_deleteById_self] at h
        simp at h
      · rw [if_neg hk] at hb
        exact ih hb h
    · rw [if_neg hv, selectById_cons] at h
      by_cases hk : v.id = key
      · rw [if_pos hk] at h hb
        simp only [Option.some.injEq] at h hb
        rw [← h, ← hb]
      · rw [if_neg hk] at h hb
        exact ih hb h

/-- Lookup after an insert: a row found before is found unchanged. -/
theorem selectById_insert (vs vs' : List Video) (row : Video) (key : String) (r r' : Video)
    (hi : insertVideo vs row = some vs')
    (hb : selectById vs key = some r) (h : selectById vs' key = some r') : r' = r := by
  unfold insertVideo at hi
  split at hi
  · simp at hi
  · simp only [Option.some.injEq] at hi
    subst hi
    simp only [selectById, List.find?_append] at h hb
    rw [hb] at h
    simpa using h.symm

/-- The upload handler leaves every row that was there as it was. -/
theorem uploadHandler_row (s : State) (file : Option String) (body : JsObject)
    (videoId : String) (issued : List Call) (key : String) (r r' : Video)
    (hb : selectById s.videos key = some r)
    (h : selectById (uploadHandler s file body videoId issued).state.videos key = some r') :
    r' = r := by
  unfold uploadHandler at h
  cases file with
  | none =>
    simp only at h
    rw [hb] at h
    simpa using h.symm
  | some filename =>
    simp only at h
    cases hi : insertVideo s.videos (newVideo videoId filename body) with
    | none =>
      rw [hi] at h
      simp only at h
      rw [hb] at h
      simpa using h.symm
    | some vs =>
      rw [hi] at h
      exact selectById_insert s.videos vs _ key r r' hi hb h

/-- No route changes the counter of a row that is there before and after. -/
theorem runRoute_clickCount (lib : Lib) (gen : Fresh) (s : State) (req : Request)
    (parsed : JsObject) (route : Route) (key : String) (r r' : Video)
    (hb : selectById s.videos key = some r)
    (h : selectById (runRoute lib gen s req parsed route).state.videos key = some r') :
    r'.clickCount = r.clickCount := by
  cases route with
  | upload =>
    rcases hu : uploadSingle lib s parsed req.body gen.suffix with ⟨s1, res, issued⟩
    have hv : s1.videos = s.videos := by
      have := uploadSingle_videos lib s parsed req.body gen.suffix
      rw [hu] at this
      exact this
    have hb' : selectById s1.videos key = some r := by rw [hv]; exact hb
    rw [runRoute_upload lib gen s req parsed s1 res issued hu] at h
    cases res with
    | none =>
      simp only at h
      rw [hb'] at h
      simp only [Option.some.injEq] at h
      rw [h]
    | some fb =>
      simp only at h
      rw [uploadHandler_row _ _ _ _ _ key r r' hb' h]
  | video videoId =>
    simp only [runRoute, viewVideo_state] at h
    rw [hb] at h
    simp only [Option.some.injEq] at h
    rw [h]
  | videos =>
    simp only [runRoute, listVideos] at h
    rw [hb] at h
    simp only [Option.some.injEq] at h
    rw [h]
  | admin =>
    simp only [runRoute, adminHome] at h
    rw [hb] at h
    simp only [Option.some.injEq] at h
    rw [h]
  | adminVideos =>
    simp only [runRoute, adminList] at h
    rw [hb] at h
    simp only [Option.some.injEq] at h
    rw [h]
  | adminEditGet videoId =>
    simp only [runRoute, adminEditGet] at h
    have hs : (match selectById s.videos videoId with
        | none => (⟨s, Response.send 404 "Video no encontrado", [Call.selectVideo videoId]⟩ : Outcome)
        | some _ => ⟨s, Response.page Page.editForm, [Call.selectVideo videoId]⟩).state = s := by
      split <;> rfl
    rw [hs, hb] at h
    simp only [Option.some.injEq] at h
    rw [h]
  | adminEditPost videoId =>
    simp only [runRoute, adminEditPost] at h
    obtain ⟨r0, hr0, hcc⟩ := selectById_setDescription s.videos videoId key _ r' h
    rw [hb] at hr0
    simp only [Option.some.injEq] at hr0
    rw [hcc, hr0]
  | adminDelete videoId =>
    simp only [runRoute, adminDelete] at h
    cases hsel : selectById s.videos videoId with
    | none =>
      rw [hsel] at h
      simp only at h
      rw [hb] at h
      simp only [Option.some.injEq] at h
      rw [h]
    | some row =>
      rw [hsel] at h
      simp only at h
      split at h
      · rw [selectById_deleteById s.videos videoId key r r' hb h]
      · rw [selectById_deleteById s.videos videoId key r r' hb h]

/-- No request changes the counter of a row that is there before and after. -/
theorem handle_clickCount (lib : Lib) (gen : Fresh) (s : State) (req : Request)
    (key : String) (r r' : Video)
    (hb : selectById s.videos key = some r)
    (h : selectById (handle lib gen s req).state.videos key = some r') :
    r'.clickCount = r.clickCount := by
  unfold handle at h
  cases hj : expressJson req.body with
  | error why =>
    rw [hj] at h
    simp only at h
    rw [hb] at h
    simp only [Option.some.injEq] at h
    rw [h]
  | ok parsed =>
    rw [hj] at h
    simp only at h
    split at h
    · rw [hb] at h
      simp only [Option.some.injEq] at h
      rw [h]
    · cases hd : dispatch req.method req.path with
      | none =>
        rw [hd] at h
        simp only at h
        rw [hb] at h
        simp only [Option.some.injEq] at h
        rw [h]
      | some route =>
        rw [hd] at h
        exact runRoute_clickCount lib gen s req parsed route key r r' hb h

/-! ### The primary key -/

/-- The description update keeps the ids of the rows. -/
theorem ids_setDescription (vs : List Video) (videoId : String) (d : Option String) :
    (setDescription vs videoId d).map (fun v => v.id) = vs.map (fun v => v.id) := by
  induction vs with
  | nil => rfl
  | cons v vs ih =>
    rw [setDescription_cons, List.map_cons, List.map_cons, ih]
    by_cases h : v.id = videoId
    · rw [if_pos h]
    · rw [if_neg h]

/-- A successful insert keeps the ids distinct. -/
theorem ids_insertVideo (vs vs' : List Video) (row : Video)
    (hi : insertVideo vs row = some vs') (h : (vs.map (fun v => v.id)).Nodup) :
    (vs'.map (fun v => v.id)).Nodup := by
  unfold insertVideo at hi
  split at hi
  · simp at hi
  · rename_i hany
    simp only [Option.some.injEq] at hi
    subst hi
    rw [List.map_append, List.nodup_append]
    refine ⟨h, by simp, ?_⟩
    intro a ha hb
    simp only [List.map_cons, List.map_nil, List.mem_singleton] at hb
    rw [List.mem_map] at ha
    obtain ⟨v, hv, hva⟩ := ha
    apply hany
    rw [List.any_eq_true]
    exact ⟨v, hv, by rw [beq_iff_eq, hva, hb]⟩

/-- Every route keeps the ids of the table distinct: the primary-key constraint. -/
theorem runRoute_unique_ids (lib : Lib) (gen : Fresh) (s : State) (req : Request)
    (parsed : JsObject) (route : Route) (h : (s.videos.map (fun v => v.id)).Nodup) :
    ((runRoute lib gen s req parsed route).state.videos.map (fun v => v.id)).Nodup := by
  cases route with
  | upload =>
    rcases hu : uploadSingle lib s parsed req.body gen.suffix with ⟨s1, res, issued⟩
    have hv : s1.videos = s.videos := by
      have := uploadSingle_videos lib s parsed req.body gen.suffix
      rw [hu] at this
      exact this
    have h1 : (s1.videos.map (fun v => v.id)).Nodup := by rw [hv]; exact h
    rw [runRoute_upload lib gen s req parsed s1 res issued hu]
    cases res with
    | none => exact h1
    | some fb =>
      simp only
      unfold uploadHandler
      split
      · exact h1
      · split
        · rename_i hi
          exact ids_insertVideo _ _ _ hi h1
        · exact h1
  | video videoId => simp only [runRoute, viewVideo_state]; exact h
  | videos => exact h
  | admin => exact h
  | adminVideos => exact h
  | adminEditGet videoId =>
    simp only [runRoute, adminEditGet]
    split <;> exact h
  | adminEditPost videoId =>
    simp only [runRoute, adminEditPost, ids_setDescription]
    exact h
  | adminDelete videoId =>
    have hsub : ((deleteById s.videos videoId).map (fun v => v.id)).Nodup :=
      h.sublist ((List.filter_sublist s.videos).map _)
    simp only [runRoute, adminDelete]
    split
    · exact h
    · split <;> exact hsub

/-- Every request keeps the ids of the table distinct. -/
theorem handle_unique_ids (lib : Lib) (gen : Fresh) (s : State) (req : Request)
    (h : (s.videos.map (fun v => v.id)).Nodup) :
    ((handle lib gen s req).state.videos.map (fun v => v.id)).Nodup := by
  unfold handle
  split
  · exact h
  · split
    · exact h
    · split
      · exact h
      · exact runRoute_unique_ids lib gen s req _ _ h

/-- With distinct ids, the lookup by id finds exactly the rows of the table. -/
theorem row_iff_mem (s : State) (videoId : String) (r : Video)
    (h : (s.videos.map (fun v => v.id)).Nodup) :
    s.row videoId = some r ↔ r ∈ s.videos ∧ r.id = videoId := by
  unfold State.row
  generalize s.videos = vs at h
  induction vs with
  | nil => simp [selectById]
  | cons v vs ih =>
    rw [List.map_cons, List.nodup_cons] at h
    rw [selectById_cons, List.mem_cons]
    by_cases hv : v.id = videoId
    · rw [if_pos hv]
      constructor
      · intro he
        simp only [Option.some.injEq] at he
        exact ⟨Or.inl he.symm, by rw [← he]; exact hv⟩
      · rintro ⟨hm | hm, hid⟩
        · rw [hm]
        · exfalso
          apply h.1
          rw [List.mem_map]
          exact ⟨r, hm, by rw [hid, hv]⟩
    · rw [if_neg hv, ih h.2]
      constructor
      · rintro ⟨hm, hid⟩; exact ⟨Or.inr hm, hid⟩
      · rintro ⟨hm | hm, hid⟩
        · exfalso; apply hv; rw [← hm]; exact hid
        · exact ⟨hm, hid⟩

/-- C9: for every request and every row that is in the table both before and after it
is handled, the row's `clickCount` afterwards is at least its value before, and it is
strictly greater only if the request was routed to `GET /video/:id` for that row and was
answered with a redirect to the row's `redirectUrl`. -/
theorem clickCount_monotone (lib : Lib) (gen : Fresh) (s : State) (req : Request)
    (videoId : String) (r r' : Video)
    (hbefore : s.row videoId = some r)
    (hafter : (handle lib gen s req).state.row videoId = some r') :
    r.clickCount ≤ r'.clickCount ∧
    (r.clickCount < r'.clickCount →
      req.method = Method.get ∧
      dispatch req.method req.path = some (Route.video videoId) ∧
      ∃ url, r.redirectUrl = some url ∧
        (handle lib gen s req).response = Response.redirect url) := by
  have h := handle_clickCount lib gen s req videoId r r' hbefore hafter
  refine ⟨le_of_eq h.symm, ?_⟩
  intro hlt
  rw [h] at hlt
  exact absurd hlt (lt_irrefl _)

/-- Witness of C9: the row `v2`, which has a redirect target, across a viewer request. -/
theorem clickCount_monotone_witness :
    redirectState.row "v2" = some redirectRow ∧
    (handle sampleLib sampleFresh redirectState (viewRequest "v2" "Mozilla/5.0")).state.row "v2" =
      some redirectRow ∧
    redirectRow.clickCount ≤ redirectRow.clickCount :=
  ⟨by decide, by decide,
    (clickCount_monotone sampleLib sampleFresh redirectState (viewRequest "v2" "Mozilla/5.0") "v2"
      redirectRow redirectRow (by decide) (by decide)).1⟩

/-! ## Claim C10: the bot classifier -/

/-- Changing the case of ASCII letters keeps a text ASCII. -/
theorem caseVariant_ascii (l l' : List Char) (h : caseVariant l l' = true)
    (hl : l.all (fun c => decide (c.toNat < 128)) = true) :
    l'.all (fun c => decide (c.toNat < 128)) = true := by
  induction l generalizing l' with
  | nil =>
    cases l' with
    | nil => rfl
    | cons d ds => simp [caseVariant] at h
  | cons c cs ih =>
    cases l' with
    | nil => simp [caseVariant] at h
    | cons d ds =>
      simp only [caseVariant, Bool.and_eq_true, Bool.or_eq_true, beq_iff_eq] at h
      simp only [List.all_cons, Bool.and_eq_true, decide_eq_true_eq] at hl ⊢
      obtain ⟨hd, htl⟩ := h
      refine ⟨?_, ih ds htl hl.2⟩
      rcases hd with (hd | hd) | hd
      · rw [hd]; exact hl.1
      · rw [hd]
        unfold Char.toLower
        simp only []
        by_cases hc : c.toNat ≥ 65 ∧ c.toNat ≤ 90
        · rw [if_pos hc, toNat_ofNat_small _ (by omega)]; omega
        · rw [if_neg hc]; exact hl.1
      · rw [hd]
        unfold Char.toUpper
        simp only []
        by_cases hc : c.toNat ≥ 97 ∧ c.toNat ≤ 122
        · rw [if_pos hc, toNat_ofNat_small _ (by omega)]; omega
        · rw [if_neg hc]; exact hl.1

/-- C10: `isBot ua` is true exactly when the lower-cased `ua` contains one of the nine
signatures as a substring; hence the result is the same for any two strings with the
same lower-casing, and in particular for an ASCII string and every string that differs
from it only in the case of its letters.  The lower-casing is the runtime's
`toLowerCase`, whatever it does outside ASCII. -/
theorem isBot_iff_signature (lib : Lib) (ua : String) :
    (isBot lib ua = true ↔
      ∃ sig ∈ ["googlebot", "bingbot", "slurp", "duckduckbot", "baiduspider", "yandexbot",
                "sogou", "exabot", "facebookexternalhit"],
        sig.data <:+: (lib.toLowerCase ua).data) ∧
    (∀ ua' : String, lib.toLowerCase ua' = lib.toLowerCase ua → isBot lib ua' = isBot lib ua) ∧
    (isAsciiText ua = true →
      ∀ ua' : String, caseVariant ua.data ua'.data = true → isBot lib ua' = isBot lib ua) := by
  refine ⟨?_, ?_, ?_⟩
  · simp only [isBot, botList, List.any_eq_true, includes_iff]
  · intro ua' h
    unfold isBot
    rw [h]
  · intro hascii ua' h
    have hascii' : isAsciiText ua' = true := caseVariant_ascii ua.data ua'.data h hascii
    have hl : asciiLower ua' = asciiLower ua := by
      unfold asciiLower
      rw [caseVariant_lower _ _ h]
    rw [isBot_ascii lib ua' hascii', isBot_ascii lib ua hascii, hl]

/-- Witness of C10: `GOOGLEBOT/2.1` and `Googlebot/2.1` are classified alike, as bots. -/
theorem isBot_iff_signature_witness :
    sampleLib.toLowerCase "GOOGLEBOT/2.1" = sampleLib.toLowerCase "Googlebot/2.1" ∧
    isAsciiText "Googlebot/2.1" = true ∧
    caseVariant "Googlebot/2.1".data "GOOGLEBOT/2.1".data = true ∧
    isBot sampleLib "GOOGLEBOT/2.1" = isBot sampleLib "Googlebot/2.1" ∧
    isBot sampleLib "gOOGLEBOT/2.1" = isBot sampleLib "Googlebot/2.1" ∧
    isBot sampleLib "Googlebot/2.1" = true :=
  ⟨by decide, by decide, by decide,
    (isBot_iff_signature sampleLib "Googlebot/2.1").2.1 "GOOGLEBOT/2.1" (by decide),
    (isBot_iff_signature sampleLib "Googlebot/2.1").2.2 (by decide) "gOOGLEBOT/2.1" (by decide),
    by decide⟩

/-! ## Claim C11: the Facebook crawler and the antibot check -/

/-- Every string `isFacebookBot` accepts is accepted by `isBot`: the Facebook signature
is the last entry of `botList`. -/
theorem isFacebookBot_imp_isBot (lib : Lib) (ua : String)
    (h : isFacebookBot lib ua = true) : isBot lib ua = true := by
  unfold isFacebookBot at h
  unfold isBot
  rw [List.any_eq_true]
  exact ⟨"facebookexternalhit", by simp [botList], h⟩

/-- The viewer handler never answers 403. -/
theorem viewVideo_not_forbidden (lib : Lib) (s : State) (videoId : String)
    (ua : Option String) : (viewVideo lib s videoId ua).response.statusCode ≠ 403 := by
  cases h : selectById s.videos videoId with
  | none => rw [viewVideo_missing lib s videoId ua h]; simp [Response.statusCode]
  | some row => rw [viewVideo_found lib s videoId ua row h]; simp [Response.statusCode]

/-- The viewer handler never answers with a redirect: neither redirect branch is
reached, whatever the row's `useAntibot` flag. -/
theorem viewVideo_not_redirect (lib : Lib) (s : State) (videoId : String)
    (ua : Option String) (url : String) :
    (viewVideo lib s videoId ua).response ≠ Response.redirect url := by
  cases h : selectById s.videos videoId with
  | none => rw [viewVideo_missing lib s videoId ua h]; simp
  | some row => rw [viewVideo_found lib s videoId ua row h]; simp

/-- C11, evaluated on the code: the table holds a row whose `useAntibot` flag is true
(and which has a Facebook redirect target); the request's user agent is
`facebookexternalhit/1.1`, which `isFacebookBot` and therefore `isBot` accept.  The
antibot check does not deny the request: `GET /video/v5` is answered with the rendered
page (status 200), not with 403, whatever the user-agent library returns. -/
theorem antibot_row_served_to_facebook_crawler (lib : Lib) (gen : Fresh) :
    (∀ v ∈ guardedFacebookState.videos,
      v.useAntibot = true ∧ v.facebookRedirectUrl = some "https://example.org/fb") ∧
    isFacebookBot lib "facebookexternalhit/1.1" = true ∧
    isBot lib "facebookexternalhit/1.1" = true ∧
    handle lib gen guardedFacebookState (viewRequest "v5" "facebookexternalhit/1.1") =
      ⟨guardedFacebookState, Response.page Page.viewer,
        [Call.selectVideo "v5", Call.selectRelated "v5"]⟩ ∧
    (handle lib gen guardedFacebookState
      (viewRequest "v5" "facebookexternalhit/1.1")).response.statusCode ≠ 403 := by
  refine ⟨by decide, ?_, ?_, rfl, ?_⟩
  · rw [isFacebookBot_ascii lib _ (by decide)]
    decide
  · rw [isBot_ascii lib _ (by decide)]
    decide
  · show (Response.page Page.viewer).statusCode ≠ 403
    decide

end Proyecto
